import Mathlib

/-!
Shallow embedding of the OpenDiag protocol-analysis scripts
(`tools/parse_btsnoop*.py`, `tools/analyze_autel_protocol*.py`) and proofs
about the layered decoder they implement: btsnoop capture reading, HCI/L2CAP
extraction, RFCOMM (subchannel) framing, and the proprietary Autel vendor
message parser and classifier.  Byte sequences are `List Nat` with each entry
a byte value; Python slices `d[a:b]` become `(d.drop a).take (b - a)` and
`struct.unpack` reads become explicit little/big-endian arithmetic.
-/

namespace OpenDiag

/-- Transfer direction of a captured record, from bit 0 of the btsnoop record
flags: `sent` is TX (bit clear), `received` is RX (bit set). -/
inductive Direction where
  | sent
  | received
deriving DecidableEq

/-- Little-endian 16-bit read of `d[i:i+2]` (`struct.unpack('<H', ...)`).
Bytes beyond the end of the list read as 0. -/
def leU16 (d : List Nat) (i : Nat) : Nat :=
  d.getD i 0 + 256 * d.getD (i + 1) 0

/-- Little-endian 32-bit read of `d[i:i+4]` (`struct.unpack('<I', ...)`).
Bytes beyond the end of the list read as 0. -/
def leU32 (d : List Nat) (i : Nat) : Nat :=
  d.getD i 0 + 256 * d.getD (i + 1) 0 + 65536 * d.getD (i + 2) 0
    + 16777216 * d.getD (i + 3) 0

/-- The Autel vendor magic bytes `55 55 AA AA`. -/
def AUTEL_MAGIC : List Nat := [0x55, 0x55, 0xAA, 0xAA]

/-- Fields of a fully parsed Autel vendor message, mirroring the result
dictionary built by `parse_autel_packet` in `analyze_autel_protocol_v2.py`
(keys `total_len`, `session_id`, `msg_counter`, `payload_len`, `flags`,
`status`, `reserved`, `payload`, `crc`, `ascii`). -/
structure AutelMsg where
  headerOffset : Nat
  totalLen : Nat
  sessionId : Nat
  msgCounter : Nat
  payloadLenField : Nat
  flags : Nat
  status : Nat
  reserved : Nat
  payload : Option (List Nat)
  crc : Option Nat
  ascii : Option (List Nat)
deriving DecidableEq

/-- Outcome of `parse_autel_packet`: no magic found (`valid=False`), magic
found but fewer than 40 bytes after the resolved offset (`valid=True,
short=True`), or a fully parsed message. -/
inductive AutelOutcome where
  | invalid
  | short
  | parsed (m : AutelMsg)
deriving DecidableEq

/-- Magic-offset resolution of `parse_autel_packet`
(`analyze_autel_protocol_v2.py` lines 96-106): a TX frame must start with the
magic (offset 0); an RX frame is first tried with one leading zero byte
(offset 1) and then with the magic at offset 0; anything else is invalid. -/
def resolveAutelOffset (dir : Direction) (data : List Nat) : Option Nat :=
  match dir with
  | .sent => if AUTEL_MAGIC.isPrefixOf data then some 0 else none
  | .received =>
    if (0 :: AUTEL_MAGIC).isPrefixOf data then some 1
    else if AUTEL_MAGIC.isPrefixOf data then some 0
    else none

/-- Printable projection of a payload, as in `analyze_autel_protocol_v2.py`
lines 162-165: `payload.decode('ascii', errors='ignore')` drops bytes ≥ 0x80,
then the comprehension keeps characters with `32 <= ord(c) < 127`. -/
def printableOf (payload : List Nat) : List Nat :=
  (payload.filter (fun b => decide (b < 128))).filter
    (fun b => decide (32 ≤ b ∧ b < 127))

/-- Python `str.strip()` on a string whose characters are all in [0x20,0x7F):
the only strippable whitespace left is the space character 0x20. -/
def stripSpaces (l : List Nat) : List Nat :=
  ((l.dropWhile (fun b => decide (b = 32))).reverse.dropWhile
    (fun b => decide (b = 32))).reverse

/-- Body of `parse_autel_packet` after the magic offset `off` has been
resolved and `len(data) >= off + 40` holds: decode the eight little-endian
32-bit header fields, slice the payload as `data[off+36 : off+4+total_len-4]`
when that interval is non-empty and ends inside the data, read the 4-byte CRC
after the payload when it fits, and attach the printable excerpt when it is
longer than 3 characters (`analyze_autel_protocol_v2.py` lines 129-168). -/
def parseAutelAt (data : List Nat) (off : Nat) : AutelOutcome :=
  let totalLen := leU32 data (off + 4)
  let sessionId := leU32 data (off + 8)
  let msgCounter := leU32 data (off + 12)
  let payloadLenField := leU32 data (off + 16)
  let flagsF := leU32 data (off + 24)
  let statusF := leU32 data (off + 28)
  let reservedF := leU32 data (off + 32)
  let payloadStart := off + 36
  let payloadEnd := off + 4 + totalLen - 4
  if payloadStart < payloadEnd ∧ payloadEnd ≤ data.length then
    let payload := (data.drop payloadStart).take (payloadEnd - payloadStart)
    let crc := if payloadEnd + 4 ≤ data.length
      then some (leU32 data payloadEnd) else none
    let printable := printableOf payload
    let ascii := if 3 < printable.length then some (stripSpaces printable)
      else none
    AutelOutcome.parsed ⟨off, totalLen, sessionId, msgCounter, payloadLenField,
      flagsF, statusF, reservedF, some payload, crc, ascii⟩
  else
    AutelOutcome.parsed ⟨off, totalLen, sessionId, msgCounter, payloadLenField,
      flagsF, statusF, reservedF, none, none, none⟩

/-- The v2 vendor message parser `parse_autel_packet`
(`analyze_autel_protocol_v2.py` lines 91-173). -/
def parse_autel_packet (data : List Nat) (dir : Direction) : AutelOutcome :=
  match resolveAutelOffset dir data with
  | none => AutelOutcome.invalid
  | some off =>
    if data.length < off + 40 then AutelOutcome.short
    else parseAutelAt data off

/-- Sample TX vendor frame: magic, total length 40, all middle header fields
zero (in particular the payload-length field at bytes 16-19 is zero), flags
`FFFFFFFF`, 4-byte payload "J254", 4-byte check value. -/
def c1data : List Nat :=
  [0x55, 0x55, 0xAA, 0xAA, 40, 0, 0, 0, 0, 0, 0, 0, 0, 0, 0, 0,
   0, 0, 0, 0, 0, 0, 0, 0, 0xFF, 0xFF, 0xFF, 0xFF, 0, 0, 0, 0,
   0, 0, 0, 0, 0x4A, 0x32, 0x35, 0x34, 0xDE, 0xAD, 0xBE, 0xEF]

/-- The message `parse_autel_packet` produces from `c1data`. -/
def c1msg : AutelMsg :=
  ⟨0, 40, 0, 0, 0, 4294967295, 0, 0, some [0x4A, 0x32, 0x35, 0x34],
    some 0xEFBEADDE, some [0x4A, 0x32, 0x35, 0x34]⟩

/-- Header-only vendor frame: magic, total-length field zero, 32 more zero
header bytes, and 8 further bytes present after the 36-byte header. -/
def c10data : List Nat :=
  [0x55, 0x55, 0xAA, 0xAA, 0, 0, 0, 0, 0, 0, 0, 0, 0, 0, 0, 0,
   0, 0, 0, 0, 0, 0, 0, 0, 0, 0, 0, 0, 0, 0, 0, 0,
   0, 0, 0, 0, 1, 2, 3, 4, 5, 6, 7, 8]

/-- The message `parse_autel_packet` produces from `c10data`. -/
def c10msg : AutelMsg :=
  ⟨0, 0, 0, 0, 0, 0, 0, 0, none, none, none⟩

/-- Magic-offset resolution of `analyze_autel_packet` in the v1 analyzer
(`analyze_autel_protocol.py` lines 116-128).  There the resolved offset points
at the first header field after the magic: 4 for TX, 5 for RX with the
leading-zero quirk, 4 for RX without it. -/
def resolveAutelOffsetV1 (dir : Direction) (data : List Nat) : Option Nat :=
  match dir with
  | .sent => if AUTEL_MAGIC.isPrefixOf data then some 4 else none
  | .received =>
    if data.length < 5 then none
    else if data.take 1 = [0] ∧ (data.drop 1).take 4 = AUTEL_MAGIC then some 5
    else if AUTEL_MAGIC.isPrefixOf data then some 4 else none

/-- Sample RX frame: one zero byte then the TX frame `c1data`. -/
def c2data : List Nat := 0 :: c1data

/-- The message `parse_autel_packet` produces from `c2data` as an RX frame:
the same fields as `c1msg` but resolved at header offset 1. -/
def c2msg : AutelMsg :=
  ⟨1, 40, 0, 0, 0, 4294967295, 0, 0, some [0x4A, 0x32, 0x35, 0x34],
    some 0xEFBEADDE, some [0x4A, 0x32, 0x35, 0x34]⟩

/-- RFCOMM stage of `extract_rfcomm_data` in `analyze_autel_protocol_v2.py`
(lines 61-88), applied to one L2CAP channel id and its channel data: only
dynamic channels (`cid ≥ 0x40`) with at least 3 bytes are considered, the
control byte masked with `0xEF` must be the UIH code `0xEF`, the variable
length field uses the 1-byte form (low bit set, value `byte >> 1`, payload at
offset 3) or the 2-byte form (value `(byte0 >> 1) | (byte1 << 7)`, payload at
offset 4), and the payload is emitted only when it is non-empty and fits. -/
def rfcommStepV2 (cid : Nat) (d : List Nat) : Option (Nat × List Nat) :=
  if cid < 0x40 ∨ d.length < 3 then none
  else
    let addr := d.getD 0 0
    let control := d.getD 1 0
    let dlci := addr / 4
    if control &&& 0xEF ≠ 0xEF then none
    else
      let lb := d.getD 2 0
      if lb &&& 1 = 1 then
        let pl := lb / 2
        if 3 + pl ≤ d.length ∧ 0 < pl then some (dlci, (d.drop 3).take pl)
        else none
      else if d.length < 4 then none
      else
        let pl := lb / 2 ||| (d.getD 3 0 * 128)
        if 4 + pl ≤ d.length ∧ 0 < pl then some (dlci, (d.drop 4).take pl)
        else none

/-- RFCOMM extraction of `extract_rfcomm_data` in `parse_btsnoop.py`
(lines 110-156), applied to one L2CAP packet: it skips only the signaling
channels `cid ≤ 0x0003`, then decodes UIH frames with the same 1-byte/2-byte
variable length field and emits the payload when it fits and is non-empty. -/
def rfcommStepV1 (cid : Nat) (d : List Nat) : Option (Nat × List Nat) :=
  if cid ≤ 3 then none
  else if d.length < 3 then none
  else
    let addr := d.getD 0 0
    let control := d.getD 1 0
    if control &&& 0xEF = 0xEF then
      let lb := d.getD 2 0
      if lb &&& 1 = 1 then
        let dl := lb / 2
        if 3 + dl ≤ d.length then
          if 0 < dl then some (addr / 4, (d.drop 3).take dl) else none
        else none
      else if d.length < 4 then none
      else
        let dl := lb / 2 ||| (d.getD 3 0 * 128)
        if 4 + dl ≤ d.length then
          if 0 < dl then some (addr / 4, (d.drop 4).take dl) else none
        else none
    else none

/-- An L2CAP-level packet as handed to the RFCOMM analyzers: channel id plus
the channel data after the 4-byte L2CAP header. -/
structure ChannelPkt where
  cid : Nat
  data : List Nat
deriving DecidableEq

/-- Dynamic-channel filter of `analyze_rfcomm_packets` in
`parse_btsnoop_v3.py` (line 167): keep packets with `cid ≥ 0x0040`. -/
def dynamicPacketsV3 (pkts : List ChannelPkt) : List ChannelPkt :=
  pkts.filter (fun p => decide (0x40 ≤ p.cid))

/-- One L2CAP extraction result of `extract_l2cap_data` in
`parse_btsnoop.py`: connection handle, channel id, and the inner payload. -/
structure L2capOut where
  handle : Nat
  cid : Nat
  payload : List Nat
deriving DecidableEq

/-- The per-record body of `extract_l2cap_data` in `parse_btsnoop.py`
(lines 78-106): the first body byte must be the ACL discriminator 2 with more
than 5 bytes present; the 16-bit handle+flags field is masked to 12 bits; the
ACL segment `data[5 : 5+acl_len]` must be fully present with `acl_len ≥ 4`;
inside it, a 16-bit little-endian length and 16-bit little-endian channel id
are read and exactly `l2cap_len` bytes are sliced as the payload, the record
being skipped when `4 + l2cap_len` exceeds the segment. -/
def extract_l2cap_step (data : List Nat) : Option L2capOut :=
  if data.length < 1 then none
  else if data.getD 0 0 = 2 ∧ 5 < data.length then
    let handle := leU16 data 1 &&& 0x0FFF
    let aclLen := leU16 data 3
    if 5 + aclLen ≤ data.length ∧ 4 ≤ aclLen then
      let lp := (data.drop 5).take aclLen
      let l2len := leU16 lp 0
      let cid := leU16 lp 2
      if 4 + l2len ≤ lp.length then some ⟨handle, cid, (lp.drop 4).take l2len⟩
      else none
    else none
  else none

/-- Sample HCI ACL record for the L2CAP extractor: discriminator 2, handle 1,
ACL length 8, inner length 4, channel 0x0041, payload `AA BB CC DD`. -/
def c4data : List Nat :=
  [2, 1, 0, 8, 0, 4, 0, 0x41, 0, 0xAA, 0xBB, 0xCC, 0xDD]

/-- The extraction result for `c4data`. -/
def c4out : L2capOut := ⟨1, 0x41, [0xAA, 0xBB, 0xCC, 0xDD]⟩

/-- The ACL/L2CAP stage of `extract_rfcomm_data` in
`analyze_autel_protocol_v2.py` (lines 43-62) for one packet: only ACL
records of at least 8 bytes are considered, the outer ACL segment
`data[4 : 4+acl_len]` must be fully present and hold at least the 4-byte
inner header, the channel id is read at `acl_payload[2:4]` — but the inner
16-bit length at `acl_payload[0:2]` is never read: everything after the
4-byte inner header (`acl_payload[4:]`) is handed to the RFCOMM stage. -/
def extract_rfcomm_v2_packet (isAcl : Bool) (data : List Nat) :
    Option (Nat × List Nat) :=
  if !isAcl then none
  else if data.length < 8 then none
  else
    let aclLen := leU16 data 2
    if data.length < 4 + aclLen then none
    else
      let aclPayload := (data.drop 4).take aclLen
      if aclPayload.length < 4 then none
      else rfcommStepV2 (leU16 aclPayload 2) (aclPayload.drop 4)

/-- ACL record whose inner L2CAP header declares length 0x00FF (255) although
only 4 bytes follow the inner header: handle bytes `01 00`, ACL length 8,
inner length 255, channel 0x0041, then a UIH frame carrying one byte. -/
def c4v2data : List Nat :=
  [1, 0, 8, 0, 0xFF, 0, 0x41, 0, 0x31, 0xEF, 0x03, 0xAA]

/-- Sample UIH frame with a 1-byte length field: dlci 12, length 1. -/
def c3d1 : List Nat := [0x31, 0xEF, 0x03, 0xAA]

/-- Sample UIH frame with a 2-byte length field: dlci 12, length 2. -/
def c3d2 : List Nat := [0x31, 0xEF, 0x04, 0x00, 0xBB, 0xCC]

/-- Kind of a captured HCI record. -/
inductive PktKind where
  | command
  | event
  | acl
  | sco
  | other
deriving DecidableEq

/-- Flags-based record classification of `parse_btsnoop_v3.py` (lines 44-56):
bit 1 set means command/event (bit 0 picking event for RX, command for TX),
otherwise the record is assumed ACL data. -/
def flagsClassifyV3 (flags : Nat) : PktKind :=
  if flags &&& 2 ≠ 0 then
    if flags &&& 1 ≠ 0 then PktKind.event else PktKind.command
  else PktKind.acl

/-- Per-record classification in `parse_btsnoop_v3.py`: the declared datalink
value and the record body are both in scope inside `parse_btsnoop`, but the
packet type is computed from the flags alone. -/
def v3RecordType (datalink flags : Nat) (body : List Nat) : PktKind :=
  flagsClassifyV3 flags

/-- Body-byte packet-type discriminator used by `parse_btsnoop.py` and
`parse_btsnoop_v2.py`: 1 = Command, 2 = ACL data, 3 = SCO, 4 = Event. -/
def discrKind (b : Nat) : PktKind :=
  if b = 1 then PktKind.command
  else if b = 2 then PktKind.acl
  else if b = 3 then PktKind.sco
  else if b = 4 then PktKind.event
  else PktKind.other

/-- Record classification of `analyze_packets` in `parse_btsnoop_v2.py`
(lines 62-79): empty bodies are skipped; otherwise the first body byte is
consumed as the discriminator, whatever the capture's link-type. -/
def v2ClassifyRecord (body : List Nat) : Option PktKind :=
  if body.length < 1 then none else some (discrKind (body.getD 0 0))

/-- Modelled from the spec (for comparison with the code's classifiers): the
claimed LinkRecordClassifier selects its mode from the declared link-type —
flags-only when the link-type is 1001, body-byte discriminator otherwise. -/
def claimedClassify (datalink flags : Nat) (body : List Nat) : Option PktKind :=
  if datalink = 1001 then some (flagsClassifyV3 flags)
  else if body.length < 1 then none else some (discrKind (body.getD 0 0))

/-- One RFCOMM-level packet handed to the vendor analyzer: subchannel id
(DLCI), direction and payload bytes. -/
structure RfPkt where
  dlci : Nat
  dir : Direction
  data : List Nat
deriving DecidableEq

/-- DLCI filter of `main` in `analyze_autel_protocol_v2.py` (line 236): only
packets on subchannel 12 are kept. -/
def dlci12Packets (pkts : List RfPkt) : List RfPkt :=
  pkts.filter (fun p => decide (p.dlci = 12))

/-- Parsing stage of `main` in `analyze_autel_protocol_v2.py` (lines 244-251):
each DLCI-12 packet is parsed and kept only when fully parsed
(`valid and not short`), paired with its originating packet. -/
def parsedPackets (pkts : List RfPkt) : List (RfPkt × AutelMsg) :=
  (dlci12Packets pkts).filterMap (fun p =>
    match parse_autel_packet p.data p.dir with
    | AutelOutcome.parsed m => some (p, m)
    | _ => none)

/-- The packet list for the C9 witness: one DLCI-12 vendor frame and one
identical frame on DLCI 7. -/
def c9pkts : List RfPkt :=
  [⟨12, Direction.sent, c1data⟩, ⟨7, Direction.sent, c1data⟩]

/-- Python substring containment `needle in hay` on byte strings. -/
def hasSub (needle : List Nat) : List Nat → Bool
  | [] => needle.isEmpty
  | b :: t => needle.isPrefixOf (b :: t) || hasSub needle t

/-- Bytes of the string "J2534". -/
def strJ2534 : List Nat := [0x4A, 0x32, 0x35, 0x33, 0x34]

/-- Bytes of the string "AUTEL". -/
def strAUTEL : List Nat := [0x41, 0x55, 0x54, 0x45, 0x4C]

/-- Bytes of the string "Mar " (firmware date pattern). -/
def strMarSpace : List Nat := [0x4D, 0x61, 0x72, 0x20]

/-- Bytes of the string "V2." (firmware version pattern). -/
def strV2Dot : List Nat := [0x56, 0x32, 0x2E]

/-- Bytes of the string "MAXI". -/
def strMAXI : List Nat := [0x4D, 0x41, 0x58, 0x49]

/-- The passthrough-open acknowledgment byte prefix `5E 01 00 00`. -/
def passthruOpenPrefix : List Nat := [0x5E, 0x01, 0x00, 0x00]

/-- Uppercase hexadecimal digit for a value below 16. -/
def hexDigit (n : Nat) : Char :=
  if n < 10 then Char.ofNat (48 + n) else Char.ofNat (55 + n)

/-- Uppercase hexadecimal digits of a natural number, most significant
first. -/
def hexDigits (n : Nat) : List Char :=
  if n < 16 then [hexDigit n]
  else hexDigits (n / 16) ++ [hexDigit (n % 16)]
termination_by n
decreasing_by omega

/-- Python `f"{n:02X}"`: uppercase hex, zero-padded to at least two
characters. -/
def hex02 (n : Nat) : List Char :=
  if n < 16 then '0' :: hexDigits n else hexDigits n

/-- The synthesized fallback tag `f"CMD_{status:02X}_{reserved:02X}"`. -/
def cmdTag (s r : Nat) : String :=
  String.mk ('C' :: 'M' :: 'D' :: '_' :: (hex02 s ++ '_' :: hex02 r))

/-- The TX command table of `identify_message_type` (lines 203-219): the
`(status, reserved)` pair is looked up; an unknown pair falls through to the
synthesized tag. -/
def classifySentTable (st rs : Nat) : String :=
  if st = 0 ∧ rs = 0 then "CONNECT_REQUEST"
  else if st = 1 ∧ rs = 4 then "PASSTHRU_OPEN"
  else if st = 1 ∧ rs = 3 then "PASSTHRU_CLOSE"
  else if st = 0x0B then "GET_VERSION"
  else if st = 0x02 then "READ_DATA"
  else if st = 0x05 then "WRITE_DATA"
  else if st = 0x08 then "START_MSG_FILTER"
  else if st = 0x03 then "DISCONNECT"
  else cmdTag st rs

/-- The direction-specific fallback of `identify_message_type`
(lines 203-224): TX messages use the command table; RX messages with status 0
are SUCCESS_RESPONSE; everything else gets the synthesized tag. -/
def classifyDirTable (m : AutelMsg) : Direction → String
  | Direction.sent => classifySentTable m.status m.reserved
  | Direction.received =>
    if m.status = 0 then "SUCCESS_RESPONSE" else cmdTag m.status m.reserved

/-- The payload byte-prefix rules of `identify_message_type`
(lines 192-200), consulted when no ascii rule matched: a payload starting
with `5E 01 00 00`, or one whose first 32-bit little-endian word is 0x15E,
gets a passthrough tag; otherwise the direction table decides. -/
def classifyPayloadRules (m : AutelMsg) (dir : Direction) : String :=
  if m.payload.getD [] ≠ [] ∧
      passthruOpenPrefix.isPrefixOf (m.payload.getD []) then
    "PASSTHRU_OPEN_RESPONSE"
  else if m.payload.getD [] ≠ [] ∧ 4 ≤ (m.payload.getD []).length ∧
      leU32 (m.payload.getD []) 0 = 0x15E then
    "PASSTHRU_RESPONSE"
  else classifyDirTable m dir

/-- The `identify_message_type` classifier (lines 175-224, entry point): the
ascii substring rules run first (a missing or empty excerpt is falsy in
Python, so they are only consulted when the excerpt is non-empty), and only
when they all miss do the payload rules and the direction table run. -/
def identify_message_type (m : AutelMsg) (dir : Direction) : String :=
  if m.ascii.getD [] ≠ [] ∧ hasSub strJ2534 (m.ascii.getD []) then
    if dir = Direction.received then "DEVICE_ID_RESPONSE"
    else "DEVICE_ID_REQUEST"
  else if m.ascii.getD [] ≠ [] ∧ hasSub strAUTEL (m.ascii.getD []) then
    "VENDOR_ID_RESPONSE"
  else if m.ascii.getD [] ≠ [] ∧ (hasSub strMarSpace (m.ascii.getD []) ∨
      hasSub strV2Dot (m.ascii.getD [])) then "FIRMWARE_VERSION_RESPONSE"
  else if m.ascii.getD [] ≠ [] ∧ hasSub strMAXI (m.ascii.getD []) then
    "DEVICE_NAME"
  else classifyPayloadRules m dir

/-- Every ascii substring rule misses: the excerpt is absent or empty, or
none of the five vendor substrings occurs in it. -/
def asciiRulesMiss (m : AutelMsg) : Prop :=
  m.ascii.getD [] = [] ∨
    (hasSub strJ2534 (m.ascii.getD []) = false ∧
     hasSub strAUTEL (m.ascii.getD []) = false ∧
     hasSub strMarSpace (m.ascii.getD []) = false ∧
     hasSub strV2Dot (m.ascii.getD []) = false ∧
     hasSub strMAXI (m.ascii.getD []) = false)

/-- Both payload byte-prefix rules miss: the payload is absent or empty, or
it neither starts with `5E 01 00 00` nor has a first 32-bit word 0x15E. -/
def payloadRulesMiss (m : AutelMsg) : Prop :=
  m.payload.getD [] = [] ∨
    (passthruOpenPrefix.isPrefixOf (m.payload.getD []) = false ∧
      ((m.payload.getD []).length < 4 ∨ leU32 (m.payload.getD []) 0 ≠ 0x15E))

/-- Message whose ascii excerpt contains "J2534" (and a payload that would
also match the passthrough rule, to exercise priority). -/
def c8msgA : AutelMsg :=
  ⟨0, 0, 0, 0, 0, 0, 5, 7, some [0x5E, 0x01, 0x00, 0x00], none,
    some [0x4A, 0x32, 0x35, 0x33, 0x34]⟩

/-- Message with no ascii excerpt and no payload, status 0. -/
def c8msgB : AutelMsg := ⟨0, 0, 0, 0, 0, 0, 0, 0, none, none, none⟩

/-- Message with no ascii excerpt and no payload, status 5, reserved 0x21. -/
def c8msgC : AutelMsg := ⟨0, 0, 0, 0, 0, 0, 5, 0x21, none, none, none⟩

/-- Big-endian 32-bit value of four bytes (`struct.unpack('>I', ...)`). -/
def beU32 (a b c d : Nat) : Nat := ((a * 256 + b) * 256 + c) * 256 + d

/-- Big-endian 64-bit value of eight bytes (`struct.unpack('>Q', ...)`). -/
def beU64 (a b c d e f g h : Nat) : Nat :=
  beU32 a b c d * 4294967296 + beU32 e f g h

/-- Big-endian 4-byte encoding of a 32-bit value. -/
def toBE4 (n : Nat) : List Nat :=
  [n / 16777216 % 256, n / 65536 % 256, n / 256 % 256, n % 256]

/-- Big-endian 8-byte encoding of a 64-bit value. -/
def toBE8 (n : Nat) : List Nat :=
  toBE4 (n / 4294967296) ++ toBE4 (n % 4294967296)

/-- The btsnoop file magic `b'btsnoop\x00'`. -/
def BTSNOOP_MAGIC : List Nat := [0x62, 0x74, 0x73, 0x6E, 0x6F, 0x6F, 0x70, 0]

/-- One capture record as built by the `parse_btsnoop` loops: the header
fields other than `included_length` (which is the body length) plus the
record body. -/
structure BtRecord where
  origLen : Nat
  flags : Nat
  drops : Nat
  timestamp : Nat
  body : List Nat
deriving DecidableEq

/-- The five fields of a 24-byte record header
(`struct.unpack('>IIIIQ', rec_header)`). -/
structure RecHeader where
  origLen : Nat
  inclLen : Nat
  flags : Nat
  drops : Nat
  ts : Nat
deriving DecidableEq

/-- Decode a 24-byte record header; anything shorter decodes to zeroes (the
scripts never reach this case because they break on short headers first). -/
def decodeRecHeader : List Nat → RecHeader
  | [o1, o2, o3, o4, i1, i2, i3, i4, f1, f2, f3, f4, d1, d2, d3, d4,
     t1, t2, t3, t4, t5, t6, t7, t8] =>
    ⟨beU32 o1 o2 o3 o4, beU32 i1 i2 i3 i4, beU32 f1 f2 f3 f4,
      beU32 d1 d2 d3 d4, beU64 t1 t2 t3 t4 t5 t6 t7 t8⟩
  | _ => ⟨0, 0, 0, 0, 0⟩

/-- The record-reading loop shared by all three `parse_btsnoop` functions
(`parse_btsnoop_v3.py` lines 29-37): read a 24-byte record header, stopping
if it is short; read `included_length` body bytes, stopping if they are
short; otherwise emit the record and continue. -/
def parseRecords (s : List Nat) : List BtRecord :=
  if s.length < 24 then []
  else
    let hd := decodeRecHeader (s.take 24)
    if (s.drop 24).length < hd.inclLen then []
    else
      ⟨hd.origLen, hd.flags, hd.drops, hd.ts, (s.drop 24).take hd.inclLen⟩ ::
        parseRecords ((s.drop 24).drop hd.inclLen)
termination_by s.length
decreasing_by
  simp only [List.length_drop]
  omega

/-- The capture-level entry of `parse_btsnoop`: a 16-byte file header whose
first 8 bytes must be the btsnoop magic, then the record loop.  A magic
mismatch yields no records (the scripts print and return an empty list); the
16-byte length requirement reflects `f.read(16)` succeeding, which the
well-formed-header hypothesis of the claims guarantees. -/
def parse_btsnoop_records (file : List Nat) : List BtRecord :=
  if file.take 8 = BTSNOOP_MAGIC ∧ 16 ≤ file.length then
    parseRecords (file.drop 16)
  else []

/-- Header-field bounds under which a record encodes into its exact wire
format: each 32-bit field below 2^32 and the timestamp below 2^64. -/
abbrev RecBounds (r : BtRecord) : Prop :=
  r.origLen < 4294967296 ∧ r.body.length < 4294967296 ∧
    r.flags < 4294967296 ∧ r.drops < 4294967296 ∧
    r.timestamp < 18446744073709551616

/-- The 24-byte wire header of a record, with `included_length` equal to the
body length. -/
def encRecordHeader (r : BtRecord) : List Nat :=
  toBE4 r.origLen ++ toBE4 r.body.length ++ toBE4 r.flags ++
    toBE4 r.drops ++ toBE8 r.timestamp

/-- The full wire form of a record: 24-byte header then the body. -/
def encodeRecord (r : BtRecord) : List Nat := encRecordHeader r ++ r.body

/-- The wire form of a record sequence followed by trailing bytes. -/
def encodeAll (rs : List BtRecord) (tail : List Nat) : List Nat :=
  rs.foldr (fun r acc => encodeRecord r ++ acc) tail

/-- Version 1, datalink 1001, as 8 big-endian header bytes. -/
def c7h8 : List Nat := [0, 0, 0, 1, 0, 0, 3, 233]

/-- A one-byte-body record: `orig_len` 1, flags 3 (RX event), body `AB`. -/
def c7rec : BtRecord := ⟨1, 3, 0, 0, [0xAB]⟩

/-- C1: for every parsed (non-short) vendor message, the payload is exactly
the slice `[header_offset+36, header_offset+4+total_length-4)` of the frame,
taken only when that interval is non-empty and its end lies within the data;
the trailing check value is the little-endian 32-bit integer in the 4 bytes
following that slice whenever those 4 bytes fit in the data; and the slice
bounds are computed from `total_length` alone, never from the
payload-length field. -/
theorem C1_payload_slice (data : List Nat) (dir : Direction) (m : AutelMsg)
    (h : parse_autel_packet data dir = AutelOutcome.parsed m) :
    m.totalLen = leU32 data (m.headerOffset + 4) ∧
    m.payloadLenField = leU32 data (m.headerOffset + 16) ∧
    (m.headerOffset + 36 < m.headerOffset + 4 + m.totalLen - 4 ∧
        m.headerOffset + 4 + m.totalLen - 4 ≤ data.length →
      m.payload = some ((data.drop (m.headerOffset + 36)).take
          (m.headerOffset + 4 + m.totalLen - 4 - (m.headerOffset + 36))) ∧
      (m.headerOffset + 4 + m.totalLen - 4 + 4 ≤ data.length →
        m.crc = some (leU32 data (m.headerOffset + 4 + m.totalLen - 4))) ∧
      (data.length < m.headerOffset + 4 + m.totalLen - 4 + 4 →
        m.crc = none)) ∧
    (¬(m.headerOffset + 36 < m.headerOffset + 4 + m.totalLen - 4 ∧
        m.headerOffset + 4 + m.totalLen - 4 ≤ data.length) →
      m.payload = none ∧ m.crc = none) := by
  cases hro : resolveAutelOffset dir data with
  | none => simp [parse_autel_packet, hro] at h
  | some off =>
    simp only [parse_autel_packet, hro] at h
    split at h
    · simp at h
    · unfold parseAutelAt at h
      dsimp only at h
      split at h
      · rename_i hc
        rw [AutelOutcome.parsed.injEq] at h
        subst h
        dsimp only
        refine ⟨rfl, rfl, fun _ => ⟨rfl, ?_, ?_⟩, fun hn => absurd hc hn⟩
        · intro hfit
          rw [if_pos hfit]
        · intro hshort
          rw [if_neg (by omega)]
      · rename_i hc
        rw [AutelOutcome.parsed.injEq] at h
        subst h
        dsimp only
        exact ⟨rfl, rfl, fun hcond => absurd hcond hc, fun _ => ⟨rfl, rfl⟩⟩

/-- Witness for C1 at the concrete frame `c1data`: the payload-length field is
0 yet the payload "J254" is still sliced (total length 40 governs), and the
check value after it is read. -/
theorem C1_payload_slice_witness :
    c1msg.payload = some ((c1data.drop (c1msg.headerOffset + 36)).take
        (c1msg.headerOffset + 4 + c1msg.totalLen - 4 - (c1msg.headerOffset + 36))) ∧
    c1msg.crc = some (leU32 c1data (c1msg.headerOffset + 4 + c1msg.totalLen - 4)) ∧
    c1msg.payloadLenField = 0 := by
  have h := C1_payload_slice c1data Direction.sent c1msg (by decide)
  exact ⟨(h.2.2.1 (by decide)).1, (h.2.2.1 (by decide)).2.1 (by decide), by decide⟩

/-- C10: a parsed vendor message whose total length makes the payload interval
empty (`total_length ≤ 36`) carries no payload, no trailing check value and no
ascii excerpt, even when bytes beyond the header are present in the frame. -/
theorem C10_header_only (data : List Nat) (dir : Direction) (m : AutelMsg)
    (h : parse_autel_packet data dir = AutelOutcome.parsed m)
    (ht : m.totalLen ≤ 36) :
    m.payload = none ∧ m.crc = none ∧ m.ascii = none := by
  cases hro : resolveAutelOffset dir data with
  | none => simp [parse_autel_packet, hro] at h
  | some off =>
    simp only [parse_autel_packet, hro] at h
    split at h
    · simp at h
    · unfold parseAutelAt at h
      dsimp only at h
      split at h
      · rename_i hc
        rw [AutelOutcome.parsed.injEq] at h
        subst h
        dsimp only at ht
        exact absurd hc (by omega)
      · rename_i hc
        rw [AutelOutcome.parsed.injEq] at h
        subst h
        exact ⟨rfl, rfl, rfl⟩

/-- Witness for C10 at the concrete header-only frame `c10data`, which has 8
bytes present beyond the 36-byte header but total length 0. -/
theorem C10_header_only_witness :
    c10msg.payload = none ∧ c10msg.crc = none ∧ c10msg.ascii = none :=
  C10_header_only c10data Direction.sent c10msg (by decide) (by decide)

/-- A list starting with the Autel magic has the magic as its first 4 bytes. -/
theorem take4_of_magicPrefix (data : List Nat)
    (h : AUTEL_MAGIC.isPrefixOf data) : data.take 4 = AUTEL_MAGIC :=
  (List.prefix_iff_eq_take.mp (List.isPrefixOf_iff_prefix.mp h)).symm

/-- A list starting with one zero byte and then the Autel magic has the magic
as bytes 1 to 4. -/
theorem drop1_take4_of_zeroMagicPrefix (data : List Nat)
    (h : (0 :: AUTEL_MAGIC).isPrefixOf data) :
    (data.drop 1).take 4 = AUTEL_MAGIC := by
  obtain ⟨t, ht⟩ := List.isPrefixOf_iff_prefix.mp h
  subst ht
  exact List.take_left AUTEL_MAGIC t

/-- The post-offset body of the v2 parser never reports `invalid`. -/
theorem parseAutelAt_ne_invalid (data : List Nat) (off : Nat) :
    parseAutelAt data off ≠ AutelOutcome.invalid := by
  unfold parseAutelAt
  dsimp only
  split <;> simp

/-- The post-offset body of the v2 parser records the offset it was given. -/
theorem parseAutelAt_headerOffset (data : List Nat) (off : Nat) (m : AutelMsg)
    (h : parseAutelAt data off = AutelOutcome.parsed m) :
    m.headerOffset = off := by
  unfold parseAutelAt at h
  dsimp only at h
  split at h <;> (rw [AutelOutcome.parsed.injEq] at h; subst h; rfl)

/-- C2: direction-dependent magic resolution.  A TX frame is a vendor message
iff the magic sits at offset 0; an RX frame is a vendor message iff one zero
byte precedes the magic (resolved offset 1, tried first) or the magic sits at
offset 0; every parsed message carries the magic at
`data[header_offset .. header_offset+4]` with `header_offset ∈ {0,1,4,5}`
(the v1 analyzer's convention contributes 4 and 5, its offset pointing just
past the magic); a frame matching neither form is `invalid`, not an error. -/
theorem C2_magic_offset (data : List Nat) :
    (parse_autel_packet data Direction.sent ≠ AutelOutcome.invalid ↔
      AUTEL_MAGIC.isPrefixOf data) ∧
    (parse_autel_packet data Direction.received ≠ AutelOutcome.invalid ↔
      ((0 :: AUTEL_MAGIC).isPrefixOf data ∨ AUTEL_MAGIC.isPrefixOf data)) ∧
    (∀ dir m, parse_autel_packet data dir = AutelOutcome.parsed m →
      (data.drop m.headerOffset).take 4 = AUTEL_MAGIC ∧
      (m.headerOffset = 0 ∨ m.headerOffset = 1 ∨ m.headerOffset = 4 ∨
        m.headerOffset = 5) ∧
      (dir = Direction.sent → m.headerOffset = 0) ∧
      (dir = Direction.received → (0 :: AUTEL_MAGIC).isPrefixOf data →
        m.headerOffset = 1)) ∧
    (∀ dir off, resolveAutelOffsetV1 dir data = some off →
      (off = 4 ∨ off = 5) ∧ (data.drop (off - 4)).take 4 = AUTEL_MAGIC) := by
  refine ⟨?_, ?_, ?_, ?_⟩
  · constructor
    · intro h
      by_cases hm : AUTEL_MAGIC.isPrefixOf data
      · exact hm
      · exact absurd (by simp [parse_autel_packet, resolveAutelOffset, hm]) h
    · intro hm
      simp only [parse_autel_packet, resolveAutelOffset, if_pos hm]
      split
      · simp
      · exact parseAutelAt_ne_invalid data 0
  · constructor
    · intro h
      by_cases hz : (0 :: AUTEL_MAGIC).isPrefixOf data
      · exact Or.inl hz
      · by_cases hm : AUTEL_MAGIC.isPrefixOf data
        · exact Or.inr hm
        · exact absurd
            (by simp [parse_autel_packet, resolveAutelOffset, hz, hm]) h
    · intro hor
      by_cases hz : (0 :: AUTEL_MAGIC).isPrefixOf data
      · simp only [parse_autel_packet, resolveAutelOffset, if_pos hz]
        split
        · simp
        · exact parseAutelAt_ne_invalid data 1
      · rcases hor with hz' | hm
        · exact absurd hz' hz
        · simp only [parse_autel_packet, resolveAutelOffset, if_neg hz,
            if_pos hm]
          split
          · simp
          · exact parseAutelAt_ne_invalid data 0
  · intro dir m h
    cases dir with
    | sent =>
      by_cases hm : AUTEL_MAGIC.isPrefixOf data
      · simp only [parse_autel_packet, resolveAutelOffset, if_pos hm] at h
        split at h
        · simp at h
        · have hoff := parseAutelAt_headerOffset data 0 m h
          refine ⟨?_, Or.inl hoff, fun _ => hoff, fun hd => by simp at hd⟩
          rw [hoff, List.drop_zero]
          exact take4_of_magicPrefix data hm
      · simp [parse_autel_packet, resolveAutelOffset, hm] at h
    | received =>
      by_cases hz : (0 :: AUTEL_MAGIC).isPrefixOf data
      · simp only [parse_autel_packet, resolveAutelOffset, if_pos hz] at h
        split at h
        · simp at h
        · have hoff := parseAutelAt_headerOffset data 1 m h
          refine ⟨?_, Or.inr (Or.inl hoff), fun hd => by simp at hd,
            fun _ _ => hoff⟩
          rw [hoff]
          exact drop1_take4_of_zeroMagicPrefix data hz
      · by_cases hm : AUTEL_MAGIC.isPrefixOf data
        · simp only [parse_autel_packet, resolveAutelOffset, if_neg hz,
            if_pos hm] at h
          split at h
          · simp at h
          · have hoff := parseAutelAt_headerOffset data 0 m h
            refine ⟨?_, Or.inl hoff, fun hd => by simp at hd,
              fun _ hzz => absurd hzz hz⟩
            rw [hoff, List.drop_zero]
            exact take4_of_magicPrefix data hm
        · simp [parse_autel_packet, resolveAutelOffset, hz, hm] at h
  · intro dir off h
    cases dir with
    | sent =>
      simp only [resolveAutelOffsetV1] at h
      split at h
      · rename_i hm
        rw [Option.some.injEq] at h
        subst h
        exact ⟨Or.inl rfl, by simpa using take4_of_magicPrefix data hm⟩
      · simp at h
    | received =>
      simp only [resolveAutelOffsetV1] at h
      split at h
      · simp at h
      · split at h
        · rename_i hcond
          rw [Option.some.injEq] at h
          subst h
          exact ⟨Or.inr rfl, by simpa using hcond.2⟩
        · split at h
          · rename_i hm
            rw [Option.some.injEq] at h
            subst h
            exact ⟨Or.inl rfl, by simpa using take4_of_magicPrefix data hm⟩
          · simp at h

/-- Witness for C2 at the concrete RX frame `c2data`: the zero-byte form
resolves to header offset 1, the magic sits there, and the v1 analyzer
resolves the same frame to its offset 5 with the magic 4 bytes earlier. -/
theorem C2_magic_offset_witness :
    (c2data.drop c2msg.headerOffset).take 4 = AUTEL_MAGIC ∧
    c2msg.headerOffset = 1 ∧
    (c2data.drop (5 - 4)).take 4 = AUTEL_MAGIC := by
  have h := (C2_magic_offset c2data).2.2.1 Direction.received c2msg (by decide)
  have h5 := (C2_magic_offset c2data).2.2.2 Direction.received 5 (by decide)
  exact ⟨h.1, h.2.2.2 rfl (by decide), h5.2⟩

/-- C3: the UIH variable-length field of an InfoUnnumbered subchannel frame.
With the low bit of the byte at offset 2 set, the payload length is
`length_byte >> 1` and the payload starts at offset 3; with it clear a second
length byte must be present, the length is `(byte0 >> 1) | (byte1 << 7)` and
the payload starts at offset 4; the frame is dropped whenever the computed
length is zero or exceeds the bytes remaining after the payload start. -/
theorem C3_uih_length_decode :
    (∀ cid d dlci payload, rfcommStepV2 cid d = some (dlci, payload) →
      dlci = d.getD 0 0 / 4 ∧
      (d.getD 2 0 &&& 1 = 1 →
        payload = (d.drop 3).take (d.getD 2 0 / 2) ∧
        payload.length = d.getD 2 0 / 2 ∧ 0 < d.getD 2 0 / 2 ∧
        3 + d.getD 2 0 / 2 ≤ d.length) ∧
      (d.getD 2 0 &&& 1 ≠ 1 →
        4 ≤ d.length ∧
        payload = (d.drop 4).take (d.getD 2 0 / 2 ||| (d.getD 3 0 * 128)) ∧
        payload.length = d.getD 2 0 / 2 ||| (d.getD 3 0 * 128) ∧
        0 < payload.length ∧ 4 + payload.length ≤ d.length)) ∧
    (∀ cid d, 0x40 ≤ cid → 3 ≤ d.length → d.getD 1 0 &&& 0xEF = 0xEF →
      ((d.getD 2 0 &&& 1 = 1 ∧
          (d.getD 2 0 / 2 = 0 ∨ d.length < 3 + d.getD 2 0 / 2)) ∨
       (d.getD 2 0 &&& 1 ≠ 1 ∧ 4 ≤ d.length ∧
          (d.getD 2 0 / 2 ||| (d.getD 3 0 * 128) = 0 ∨
            d.length < 4 + (d.getD 2 0 / 2 ||| (d.getD 3 0 * 128)))) ∨
       (d.getD 2 0 &&& 1 ≠ 1 ∧ d.length < 4)) →
      rfcommStepV2 cid d = none) := by
  constructor
  · intro cid d dlci payload h
    unfold rfcommStepV2 at h
    dsimp only at h
    split at h
    · simp at h
    · split at h
      · simp at h
      · rename_i hok hctl
        split at h
        · rename_i hodd
          split at h
          · rename_i hfit
            rw [Option.some.injEq, Prod.mk.injEq] at h
            obtain ⟨hd, hp⟩ := h
            subst hd
            subst hp
            refine ⟨rfl, fun _ => ⟨rfl, ?_, hfit.2, hfit.1⟩,
              fun hne => absurd hodd hne⟩
            have := hfit.1
            simp only [List.length_take, List.length_drop]
            omega
          · simp at h
        · rename_i heven
          split at h
          · simp at h
          · rename_i h4
            split at h
            · rename_i hfit
              rw [Option.some.injEq, Prod.mk.injEq] at h
              obtain ⟨hd, hp⟩ := h
              subst hd
              subst hp
              have hlen : ((d.drop 4).take
                  (d.getD 2 0 / 2 ||| (d.getD 3 0 * 128))).length =
                  d.getD 2 0 / 2 ||| (d.getD 3 0 * 128) := by
                have := hfit.1
                simp only [List.length_take, List.length_drop]
                omega
              refine ⟨rfl, fun hodd => absurd hodd heven,
                fun _ => ⟨by omega, rfl, hlen, ?_, ?_⟩⟩
              · rw [hlen]; exact hfit.2
              · rw [hlen]; exact hfit.1
            · simp at h
  · intro cid d hcid hlen hctl hbad
    unfold rfcommStepV2
    dsimp only
    rw [if_neg (by omega), if_neg (not_ne_iff.mpr hctl)]
    rcases hbad with ⟨hodd, hz⟩ | ⟨heven, h4, hz⟩ | ⟨heven, h4⟩
    · rw [if_pos hodd, if_neg (by omega)]
    · rw [if_neg heven, if_neg (by omega), if_neg (by omega)]
    · rw [if_neg heven, if_pos h4]

/-- Witness for C3: a 1-byte-length UIH frame (`03` odd, payload length 1 at
offset 3) and a 2-byte-length UIH frame (`04 00`, payload length 2 at
offset 4), both on dlci 12. -/
theorem C3_uih_length_decode_witness :
    (12 : Nat) = c3d1.getD 0 0 / 4 ∧
    [(0xAA : Nat)] = (c3d1.drop 3).take (c3d1.getD 2 0 / 2) ∧
    [(0xBB : Nat), 0xCC] =
      (c3d2.drop 4).take (c3d2.getD 2 0 / 2 ||| (c3d2.getD 3 0 * 128)) := by
  have h1 := C3_uih_length_decode.1 0x40 c3d1 12 [0xAA] (by decide)
  have h2 := C3_uih_length_decode.1 0x40 c3d2 12 [0xBB, 0xCC] (by decide)
  exact ⟨h1.1, (h1.2.1 (by decide)).1, (h2.2.2 (by decide)).2.1⟩

/-- C4 counterexample: `extract_rfcomm_data` in `analyze_autel_protocol_v2.py`
(a cited PacketReassembler path) never reads the inner 16-bit L2CAP length.
On the record `c4v2data`, whose inner header declares length 255 while only 4
bytes follow it (so the claim requires the record to be silently skipped),
the extractor still emits a payload — and the emitted payload has length 1,
not the declared 255.  The claimed read-inner-length-and-skip-on-shortfall
behavior therefore does not hold for every Data record. -/
theorem C4_inner_length_counterexample :
    extract_rfcomm_v2_packet true c4v2data = some (12, [0xAA]) ∧
    leU16 ((c4v2data.drop 4).take (leU16 c4v2data 2)) 0 = 255 ∧
    ((c4v2data.drop 4).take (leU16 c4v2data 2)).length <
      4 + leU16 ((c4v2data.drop 4).take (leU16 c4v2data 2)) 0 ∧
    (1 : Nat) ≠ 255 := by decide

/-- C4 amended: `extract_l2cap_data` in `parse_btsnoop.py` reads a 16-bit
little-endian inner length and a 16-bit little-endian channel id from the
inner frame and emits exactly that many bytes as the payload, silently
skipping (never truncating, never erroring) any record whose declared inner
length exceeds the bytes available; `extract_rfcomm_data` in
`analyze_autel_protocol_v2.py`, however, never reads the inner length field —
everything it emits is decoded from the channel id at `acl_payload[2:4]` and
the bytes after the 4-byte inner header, the declared inner length playing no
role. -/
theorem C4_inner_length_amended :
    (∀ data out, extract_l2cap_step data = some out →
      out.payload = (((data.drop 5).take (leU16 data 3)).drop 4).take
          (leU16 ((data.drop 5).take (leU16 data 3)) 0) ∧
      out.payload.length = leU16 ((data.drop 5).take (leU16 data 3)) 0 ∧
      out.cid = leU16 ((data.drop 5).take (leU16 data 3)) 2) ∧
    (∀ data, data.getD 0 0 = 2 → 5 < data.length →
      5 + leU16 data 3 ≤ data.length → 4 ≤ leU16 data 3 →
      ((data.drop 5).take (leU16 data 3)).length <
        4 + leU16 ((data.drop 5).take (leU16 data 3)) 0 →
      extract_l2cap_step data = none) ∧
    (∀ isAcl data r, extract_rfcomm_v2_packet isAcl data = some r →
      isAcl = true ∧ 8 ≤ data.length ∧ 4 + leU16 data 2 ≤ data.length ∧
      4 ≤ ((data.drop 4).take (leU16 data 2)).length ∧
      rfcommStepV2 (leU16 ((data.drop 4).take (leU16 data 2)) 2)
        (((data.drop 4).take (leU16 data 2)).drop 4) = some r) := by
  refine ⟨?_, ?_, ?_⟩
  · intro data out h
    unfold extract_l2cap_step at h
    dsimp only at h
    split at h
    · simp at h
    · split at h
      · rename_i h1 h2
        split at h
        · rename_i hacl
          split at h
          · rename_i hfit
            rw [Option.some.injEq] at h
            subst h
            refine ⟨rfl, ?_, rfl⟩
            have hlp : ((data.drop 5).take (leU16 data 3)).length =
                leU16 data 3 := by
              simp only [List.length_take, List.length_drop]
              omega
            simp only [List.length_take, List.length_drop]
            rw [hlp] at hfit
            omega
          · simp at h
        · simp at h
      · simp at h
  · intro data h0 h5 hacl hacl4 hshort
    unfold extract_l2cap_step
    dsimp only
    rw [if_neg (by omega), if_pos ⟨h0, h5⟩, if_pos ⟨hacl, hacl4⟩,
      if_neg (by omega)]
  · intro isAcl data r h
    unfold extract_rfcomm_v2_packet at h
    dsimp only at h
    split at h
    · simp at h
    · rename_i ha
      split at h
      · simp at h
      · rename_i h8
        split at h
        · simp at h
        · rename_i h4
          split at h
          · simp at h
          · rename_i hp4
            refine ⟨by simpa using ha, by omega, by omega, by omega, h⟩

/-- Witness for the amended C4: on `c4data` the v1 extractor emits exactly
the 4 declared bytes `AA BB CC DD` from channel 0x41, while on `c4v2data`
the v2 extractor's output is fully determined by the channel id and the
bytes after the inner header, with no reference to the declared inner
length. -/
theorem C4_inner_length_amended_witness :
    c4out.payload = (((c4data.drop 5).take (leU16 c4data 3)).drop 4).take
        (leU16 ((c4data.drop 5).take (leU16 c4data 3)) 0) ∧
    c4out.payload.length = leU16 ((c4data.drop 5).take (leU16 c4data 3)) 0 ∧
    c4out.cid = leU16 ((c4data.drop 5).take (leU16 c4data 3)) 2 ∧
    rfcommStepV2 (leU16 ((c4v2data.drop 4).take (leU16 c4v2data 2)) 2)
      (((c4v2data.drop 4).take (leU16 c4v2data 2)).drop 4) =
      some (12, [0xAA]) := by
  have ha := C4_inner_length_amended.1 c4data c4out (by decide)
  have hb := C4_inner_length_amended.2.2 true c4v2data (12, [0xAA])
    (by decide)
  exact ⟨ha.1, ha.2.1, ha.2.2, hb.2.2.2.2⟩

/-- C5 counterexample: `extract_rfcomm_data` in `parse_btsnoop.py` emits a
payload for a frame on channel 0x0004, which is below 0x0040 — the claim that
no frame on a channel below 0x0040 ever contributes a payload fails there
(that script only excludes the signaling channels `cid ≤ 0x0003`). -/
theorem C5_channel_filter_counterexample :
    rfcommStepV1 4 [0x31, 0xEF, 0x03, 0xAA] = some (12, [0xAA]) ∧
    (4 : Nat) < 0x40 := by decide

/-- C5 amended: the vendor-protocol analyzers do enforce the dynamic-channel
bound — `analyze_autel_protocol_v2.py` emits subchannel payloads only for
`cid ≥ 0x0040` and `parse_btsnoop_v3.py` filters to `cid ≥ 0x0040` — while
`parse_btsnoop.py`'s RFCOMM extractor only requires `cid > 0x0003`. -/
theorem C5_channel_filter_amended :
    (∀ cid d r, rfcommStepV2 cid d = some r → 0x40 ≤ cid) ∧
    (∀ pkts p, p ∈ dynamicPacketsV3 pkts → 0x40 ≤ p.cid) ∧
    (∀ cid d r, rfcommStepV1 cid d = some r → 4 ≤ cid) := by
  refine ⟨?_, ?_, ?_⟩
  · intro cid d r h
    unfold rfcommStepV2 at h
    split at h
    · simp at h
    · rename_i hok
      omega
  · intro pkts p hp
    simp only [dynamicPacketsV3, List.mem_filter, decide_eq_true_eq] at hp
    exact hp.2
  · intro cid d r h
    unfold rfcommStepV1 at h
    split at h
    · simp at h
    · rename_i hok
      omega

/-- Witness for the amended C5: concrete frames at the boundary channels. -/
theorem C5_channel_filter_amended_witness :
    (0x40 : Nat) ≤ 0x40 ∧ (4 : Nat) ≤ 4 :=
  ⟨C5_channel_filter_amended.1 0x40 [0x31, 0xEF, 0x03, 0xAA] (12, [0xAA])
      (by decide),
    C5_channel_filter_amended.2.2 4 [0x31, 0xEF, 0x03, 0xAA] (12, [0xAA])
      (by decide)⟩

/-- C6 counterexample: on a capture whose link-type is 1002 (≠ 1001) with a
record of flags 2 and first body byte 2, `parse_btsnoop_v3.py` still
classifies from flags (Command) where the claimed link-type-selected
classifier consumes the body byte (ACL data); conversely, on a link-type-1001
capture `parse_btsnoop_v2.py` still consumes the body byte (ACL) where the
claimed classifier uses flags (Command).  No script selects its mode from the
link-type. -/
theorem C6_link_type_mode_counterexample :
    v3RecordType 1002 2 [2] = PktKind.command ∧
    claimedClassify 1002 2 [2] = some PktKind.acl ∧
    v2ClassifyRecord [2] = some PktKind.acl ∧
    claimedClassify 1001 2 [2] = some PktKind.command ∧
    PktKind.command ≠ PktKind.acl := by decide

/-- C6 amended: each script's classifier mode is fixed, independent of the
declared link-type.  `parse_btsnoop_v3.py` derives the kind purely from flags
for every capture, never consuming the first body byte (and flags-only mode
can never report SCO); `parse_btsnoop_v2.py` always consumes the first body
byte as the discriminator; `parse_btsnoop.py`'s ACL extraction likewise
requires the first body byte to be the discriminator value 2. -/
theorem C6_fixed_mode_amended :
    (∀ dl dl' flags body body',
      v3RecordType dl flags body = v3RecordType dl' flags body') ∧
    (∀ dl flags body, v3RecordType dl flags body = flagsClassifyV3 flags) ∧
    (∀ flags, flagsClassifyV3 flags ≠ PktKind.sco) ∧
    (∀ body k, v2ClassifyRecord body = some k →
      k = discrKind (body.getD 0 0) ∧ 1 ≤ body.length) ∧
    (∀ data out, extract_l2cap_step data = some out → data.getD 0 0 = 2) := by
  refine ⟨fun _ _ _ _ _ => rfl, fun _ _ _ => rfl, ?_, ?_, ?_⟩
  · intro flags
    unfold flagsClassifyV3
    split
    · split <;> simp
    · simp
  · intro body k h
    unfold v2ClassifyRecord at h
    split at h
    · simp at h
    · rename_i hlen
      rw [Option.some.injEq] at h
      exact ⟨h.symm, by omega⟩
  · intro data out h
    unfold extract_l2cap_step at h
    dsimp only at h
    split at h
    · simp at h
    · split at h
      · rename_i hcond
        exact hcond.1
      · simp at h

/-- Witness for the amended C6 at concrete records: a link-type-1002 record is
still classified from flags by the v3 parser, and the v1 extractor's accepted
record `c4data` indeed starts with the discriminator byte 2. -/
theorem C6_fixed_mode_amended_witness :
    v3RecordType 1002 2 [2] = flagsClassifyV3 2 ∧ c4data.getD 0 0 = 2 :=
  ⟨C6_fixed_mode_amended.2.1 1002 2 [2],
    C6_fixed_mode_amended.2.2.2.2 c4data c4out (by decide)⟩

/-- C9: only subchannel-12 frames reach the vendor message parser and the
session correlator.  Every parsed message originates from a packet with
`dlci = 12`, and removing all non-DLCI-12 packets leaves the parsed output
unchanged — frames on other subchannels are silently excluded. -/
theorem C9_dlci12_only :
    (∀ pkts pm, pm ∈ parsedPackets pkts →
      pm.1 ∈ pkts ∧ pm.1.dlci = 12 ∧
      parse_autel_packet pm.1.data pm.1.dir = AutelOutcome.parsed pm.2) ∧
    (∀ pkts,
      parsedPackets (pkts.filter (fun p => decide (p.dlci = 12))) =
        parsedPackets pkts) := by
  constructor
  · intro pkts pm hm
    simp only [parsedPackets, List.mem_filterMap, dlci12Packets,
      List.mem_filter, decide_eq_true_eq] at hm
    obtain ⟨p, ⟨hmem, h12⟩, hmatch⟩ := hm
    cases hparse : parse_autel_packet p.data p.dir with
    | invalid => rw [hparse] at hmatch; simp at hmatch
    | short => rw [hparse] at hmatch; simp at hmatch
    | parsed m =>
      rw [hparse] at hmatch
      simp only [Option.some.injEq] at hmatch
      subst hmatch
      exact ⟨hmem, h12, hparse⟩
  · intro pkts
    unfold parsedPackets dlci12Packets
    rw [List.filter_filter]
    have hf : (fun (p : RfPkt) =>
        decide (p.dlci = 12) && decide (p.dlci = 12)) =
        fun p => decide (p.dlci = 12) :=
      funext fun p => Bool.and_self _
    rw [hf]

/-- Witness for C9: in `c9pkts` the parsed output comes from the DLCI-12
packet, and dropping the DLCI-7 packet changes nothing. -/
theorem C9_dlci12_only_witness :
    ((⟨12, Direction.sent, c1data⟩ : RfPkt), c1msg).1 ∈ c9pkts ∧
    ((⟨12, Direction.sent, c1data⟩ : RfPkt), c1msg).1.dlci = 12 ∧
    parsedPackets (c9pkts.filter (fun p => decide (p.dlci = 12))) =
      parsedPackets c9pkts := by
  have h1 := C9_dlci12_only.1 c9pkts (⟨12, Direction.sent, c1data⟩, c1msg)
    (by decide)
  exact ⟨h1.1, h1.2.1, C9_dlci12_only.2 c9pkts⟩

/-- The synthesized fallback tag is never the empty string. -/
theorem cmdTag_ne_empty (s r : Nat) : cmdTag s r ≠ "" := by
  intro hcon
  have := congrArg String.data hcon
  simp [cmdTag] at this

/-- The TX command table never returns the empty string. -/
theorem classifySentTable_ne_empty (st rs : Nat) :
    classifySentTable st rs ≠ "" := by
  unfold classifySentTable
  split
  · decide
  · split
    · decide
    · split
      · decide
      · split
        · decide
        · split
          · decide
          · split
            · decide
            · split
              · decide
              · split
                · decide
                · exact cmdTag_ne_empty st rs

/-- The direction-specific fallback never returns the empty string. -/
theorem classifyDirTable_ne_empty (m : AutelMsg) (dir : Direction) :
    classifyDirTable m dir ≠ "" := by
  cases dir
  · exact classifySentTable_ne_empty m.status m.reserved
  · show (if m.status = 0 then "SUCCESS_RESPONSE"
      else cmdTag m.status m.reserved) ≠ ""
    split
    · decide
    · exact cmdTag_ne_empty m.status m.reserved

/-- The payload-rule stage never returns the empty string. -/
theorem classifyPayloadRules_ne_empty (m : AutelMsg) (dir : Direction) :
    classifyPayloadRules m dir ≠ "" := by
  unfold classifyPayloadRules
  split
  · decide
  · split
    · decide
    · exact classifyDirTable_ne_empty m dir

/-- C8: classification is a priority-ordered rule chain with first match
winning — ascii substring rules first (shown for the "J2534" rule, which wins
whatever the payload, status and reserved fields hold), payload byte-prefix
rules second, the direction-specific status/reserved lookup third (a Received
message with status 0 is SUCCESS_RESPONSE), and a tag synthesized from the
`(status, reserved)` pair as the default — and the returned tag is always
non-empty. -/
theorem C8_classification_chain :
    (∀ m dir, identify_message_type m dir ≠ "") ∧
    (∀ m dir, m.ascii.getD [] ≠ [] →
      hasSub strJ2534 (m.ascii.getD []) = true →
      identify_message_type m dir =
        if dir = Direction.received then "DEVICE_ID_RESPONSE"
        else "DEVICE_ID_REQUEST") ∧
    (∀ m dir, asciiRulesMiss m → m.payload.getD [] ≠ [] →
      passthruOpenPrefix.isPrefixOf (m.payload.getD []) = true →
      identify_message_type m dir = "PASSTHRU_OPEN_RESPONSE") ∧
    (∀ m, asciiRulesMiss m → payloadRulesMiss m → m.status = 0 →
      identify_message_type m Direction.received = "SUCCESS_RESPONSE") ∧
    (∀ m, asciiRulesMiss m → payloadRulesMiss m → m.status ≠ 0 →
      identify_message_type m Direction.received =
        cmdTag m.status m.reserved) ∧
    (∀ s r, cmdTag s r ≠ "") := by
  have hmiss : ∀ m : AutelMsg, asciiRulesMiss m →
      (¬(m.ascii.getD [] ≠ [] ∧ hasSub strJ2534 (m.ascii.getD []) = true)) ∧
      (¬(m.ascii.getD [] ≠ [] ∧ hasSub strAUTEL (m.ascii.getD []) = true)) ∧
      (¬(m.ascii.getD [] ≠ [] ∧
        (hasSub strMarSpace (m.ascii.getD []) = true ∨
          hasSub strV2Dot (m.ascii.getD []) = true))) ∧
      (¬(m.ascii.getD [] ≠ [] ∧ hasSub strMAXI (m.ascii.getD []) = true)) := by
    intro m hm
    rcases hm with h | ⟨h1, h2, h3, h4, h5⟩
    · exact ⟨fun hc => hc.1 h, fun hc => hc.1 h, fun hc => hc.1 h,
        fun hc => hc.1 h⟩
    · refine ⟨fun hc => ?_, fun hc => ?_, fun hc => ?_, fun hc => ?_⟩
      · rw [h1] at hc
        exact Bool.false_ne_true hc.2
      · rw [h2] at hc
        exact Bool.false_ne_true hc.2
      · rcases hc.2 with hx | hx
        · rw [h3] at hx
          exact Bool.false_ne_true hx
        · rw [h4] at hx
          exact Bool.false_ne_true hx
      · rw [h5] at hc
        exact Bool.false_ne_true hc.2
  have hpmiss : ∀ m : AutelMsg, payloadRulesMiss m →
      (¬(m.payload.getD [] ≠ [] ∧
        passthruOpenPrefix.isPrefixOf (m.payload.getD []) = true)) ∧
      (¬(m.payload.getD [] ≠ [] ∧ 4 ≤ (m.payload.getD []).length ∧
        leU32 (m.payload.getD []) 0 = 0x15E)) := by
    intro m hm
    rcases hm with h | ⟨h1, h2⟩
    · exact ⟨fun hc => hc.1 h, fun hc => hc.1 h⟩
    · refine ⟨fun hc => ?_, fun hc => ?_⟩
      · rw [h1] at hc
        exact Bool.false_ne_true hc.2
      · rcases h2 with h2 | h2
        · have := hc.2.1
          omega
        · exact h2 hc.2.2
  refine ⟨?_, ?_, ?_, ?_, ?_, cmdTag_ne_empty⟩
  · intro m dir
    unfold identify_message_type
    split
    · split <;> decide
    · split
      · decide
      · split
        · decide
        · split
          · decide
          · exact classifyPayloadRules_ne_empty m dir
  · intro m dir hne hs
    unfold identify_message_type
    rw [if_pos ⟨hne, hs⟩]
  · intro m dir hmi hpne hpre
    obtain ⟨h1, h2, h3, h4⟩ := hmiss m hmi
    unfold identify_message_type
    rw [if_neg h1, if_neg h2, if_neg h3, if_neg h4]
    unfold classifyPayloadRules
    rw [if_pos ⟨hpne, hpre⟩]
  · intro m hmi hpi h0
    obtain ⟨h1, h2, h3, h4⟩ := hmiss m hmi
    obtain ⟨hp1, hp2⟩ := hpmiss m hpi
    unfold identify_message_type
    rw [if_neg h1, if_neg h2, if_neg h3, if_neg h4]
    unfold classifyPayloadRules
    rw [if_neg hp1, if_neg hp2]
    simp only [classifyDirTable]
    rw [if_pos h0]
  · intro m hmi hpi h0
    obtain ⟨h1, h2, h3, h4⟩ := hmiss m hmi
    obtain ⟨hp1, hp2⟩ := hpmiss m hpi
    unfold identify_message_type
    rw [if_neg h1, if_neg h2, if_neg h3, if_neg h4]
    unfold classifyPayloadRules
    rw [if_neg hp1, if_neg hp2]
    simp only [classifyDirTable]
    rw [if_neg h0]

/-- Witness for C8: the ascii rule wins over the matching payload prefix on
`c8msgA`; a bare Received status-0 message is SUCCESS_RESPONSE; a bare
Received status-5 message falls through to the synthesized tag, which is
non-empty. -/
theorem C8_classification_chain_witness :
    identify_message_type c8msgA Direction.received =
      (if Direction.received = Direction.received then "DEVICE_ID_RESPONSE"
        else "DEVICE_ID_REQUEST") ∧
    identify_message_type c8msgB Direction.received = "SUCCESS_RESPONSE" ∧
    identify_message_type c8msgC Direction.received =
      cmdTag c8msgC.status c8msgC.reserved ∧
    identify_message_type c8msgC Direction.received ≠ "" := by
  refine ⟨C8_classification_chain.2.1 c8msgA Direction.received (by decide)
      (by decide),
    C8_classification_chain.2.2.2.1 c8msgB (Or.inl rfl) (Or.inl rfl) rfl,
    C8_classification_chain.2.2.2.2.1 c8msgC (Or.inl rfl) (Or.inl rfl)
      (by decide),
    C8_classification_chain.1 c8msgC Direction.received⟩

/-- Big-endian 32-bit round trip. -/
theorem beU32_round (n : Nat) (h : n < 4294967296) :
    beU32 (n / 16777216 % 256) (n / 65536 % 256) (n / 256 % 256)
      (n % 256) = n := by
  unfold beU32
  omega

/-- Big-endian 64-bit round trip. -/
theorem beU64_round (n : Nat) (h : n < 18446744073709551616) :
    beU64 (n / 4294967296 / 16777216 % 256) (n / 4294967296 / 65536 % 256)
      (n / 4294967296 / 256 % 256) (n / 4294967296 % 256)
      (n % 4294967296 / 16777216 % 256) (n % 4294967296 / 65536 % 256)
      (n % 4294967296 / 256 % 256) (n % 4294967296 % 256) = n := by
  unfold beU64
  rw [beU32_round (n / 4294967296) (by omega),
    beU32_round (n % 4294967296) (by omega)]
  omega

/-- Decoding a 24-element header list is plain field decoding. -/
theorem decodeRecHeader_cons (o1 o2 o3 o4 i1 i2 i3 i4 f1 f2 f3 f4
    d1 d2 d3 d4 t1 t2 t3 t4 t5 t6 t7 t8 : Nat) :
    decodeRecHeader [o1, o2, o3, o4, i1, i2, i3, i4, f1, f2, f3, f4,
        d1, d2, d3, d4, t1, t2, t3, t4, t5, t6, t7, t8] =
      ⟨beU32 o1 o2 o3 o4, beU32 i1 i2 i3 i4, beU32 f1 f2 f3 f4,
        beU32 d1 d2 d3 d4, beU64 t1 t2 t3 t4 t5 t6 t7 t8⟩ := rfl

/-- The encoded header is 24 bytes long. -/
theorem encRecordHeader_length (r : BtRecord) :
    (encRecordHeader r).length = 24 := by
  simp [encRecordHeader, toBE4, toBE8]

/-- Decoding the encoded header recovers the record's header fields. -/
theorem decode_encRecordHeader (r : BtRecord) (hb : RecBounds r) :
    decodeRecHeader (encRecordHeader r) =
      ⟨r.origLen, r.body.length, r.flags, r.drops, r.timestamp⟩ := by
  obtain ⟨h1, h2, h3, h4, h5⟩ := hb
  simp only [encRecordHeader, toBE4, toBE8, List.cons_append,
    List.nil_append, decodeRecHeader_cons]
  rw [beU32_round r.origLen h1, beU32_round r.body.length h2,
    beU32_round r.flags h3, beU32_round r.drops h4,
    beU64_round r.timestamp h5]

/-- A stream starting with an encoded record parses to that record followed
by the parse of the remaining stream. -/
theorem parseRecords_encode (r : BtRecord) (rest : List Nat)
    (hb : RecBounds r) :
    parseRecords (encodeRecord r ++ rest) = r :: parseRecords rest := by
  have hassoc : encodeRecord r ++ rest =
      encRecordHeader r ++ (r.body ++ rest) := by
    simp [encodeRecord, List.append_assoc]
  have htake : (encodeRecord r ++ rest).take 24 = encRecordHeader r := by
    rw [hassoc, ← encRecordHeader_length r, List.take_left]
  have hdrop : (encodeRecord r ++ rest).drop 24 = r.body ++ rest := by
    rw [hassoc, ← encRecordHeader_length r, List.drop_left]
  have hlental : (encodeRecord r ++ rest).length =
      24 + (r.body.length + rest.length) := by
    rw [hassoc]
    simp [List.length_append, encRecordHeader_length r]
  rw [parseRecords]
  rw [if_neg (by omega), htake, decode_encRecordHeader r hb]
  dsimp only
  rw [hdrop]
  rw [if_neg (by simp [List.length_append])]
  rw [List.take_left, List.drop_left]

/-- A trailing fragment too short for a full record parses to nothing. -/
theorem parseRecords_short (junk : List Nat)
    (hj : junk.length < 24 + (decodeRecHeader (junk.take 24)).inclLen) :
    parseRecords junk = [] := by
  rw [parseRecords]
  by_cases h24 : junk.length < 24
  · rw [if_pos h24]
  · rw [if_neg h24]
    dsimp only
    rw [if_pos (by simp only [List.length_drop]; omega)]

/-- Encoded records followed by a truncated fragment parse to exactly those
records. -/
theorem parseRecords_encodeAll (recs : List BtRecord) (junk : List Nat)
    (hj : junk.length < 24 + (decodeRecHeader (junk.take 24)).inclLen) :
    (∀ r ∈ recs, RecBounds r) →
    parseRecords (encodeAll recs junk) = recs := by
  induction recs with
  | nil => exact fun _ => parseRecords_short junk hj
  | cons r rs ih =>
    intro hb
    have hstep : encodeAll (r :: rs) junk =
        encodeRecord r ++ encodeAll rs junk := rfl
    rw [hstep, parseRecords_encode r (encodeAll rs junk) (hb r (by simp)),
      ih (fun x hx => hb x (by simp [hx]))]

/-- C7: for every well-formed capture header, the reader yields exactly the
records whose 24-byte header and full body are present before the end of the
file, in file order; a truncated trailing record header or body terminates
the sequence cleanly with no partial record; a file holding only the 16-byte
header yields the empty sequence. -/
theorem C7_capture_reader (h8 : List Nat) (recs : List BtRecord)
    (junk : List Nat) (hh : h8.length = 8)
    (hb : ∀ r ∈ recs, RecBounds r)
    (hj : junk.length < 24 + (decodeRecHeader (junk.take 24)).inclLen) :
    parse_btsnoop_records (BTSNOOP_MAGIC ++ h8 ++ encodeAll recs junk) =
      recs := by
  have hmagic : (BTSNOOP_MAGIC ++ h8 ++ encodeAll recs junk).take 8 =
      BTSNOOP_MAGIC := by
    rw [List.append_assoc]
    exact List.take_left BTSNOOP_MAGIC (h8 ++ encodeAll recs junk)
  have hlen16 : (BTSNOOP_MAGIC ++ h8).length = 16 := by
    simp [BTSNOOP_MAGIC, hh]
  have hdrop16 : (BTSNOOP_MAGIC ++ h8 ++ encodeAll recs junk).drop 16 =
      encodeAll recs junk := by
    rw [← hlen16]
    exact List.drop_left (BTSNOOP_MAGIC ++ h8) (encodeAll recs junk)
  unfold parse_btsnoop_records
  rw [if_pos ⟨hmagic, by simp [List.length_append, BTSNOOP_MAGIC, hh]⟩,
    hdrop16]
  exact parseRecords_encodeAll recs junk hj hb

/-- Witness for C7: a capture with one full record followed by a single
stray byte yields exactly that record, and a capture holding only the
16-byte file header yields the empty sequence without error. -/
theorem C7_capture_reader_witness :
    parse_btsnoop_records (BTSNOOP_MAGIC ++ c7h8 ++ encodeAll [c7rec] [0xFF])
      = [c7rec] ∧
    parse_btsnoop_records (BTSNOOP_MAGIC ++ c7h8 ++ encodeAll [] []) = [] :=
  ⟨C7_capture_reader c7h8 [c7rec] [0xFF] (by decide) (by decide) (by decide),
    C7_capture_reader c7h8 [] [] (by decide) (by decide) (by decide)⟩

end OpenDiag
